import Mathlib

/-!
wasp-lib — verification of the pointer-abstraction layer

A shallow embedding of the wasp-lib core (`src/types.ts`, `src/type-converter.ts`,
`src/pointer/base-pointer.ts`, `src/pointer/array-pointer.ts`,
`src/pointer/number-pointer.ts`, `src/pointer/string-pointer.ts`,
`src/pointer/char-pointer.ts`, `src/pointer/bool-pointer.ts`).

JavaScript numbers are modelled as `ℚ`, bigints as `ℤ`, JS strings as lists of
UTF-16 code units (`List ℕ`), and thrown `Error`s as the `Err` inductive whose
constructor arguments are exactly the values the source interpolates into the
error message.  Exceptions are modelled with `Except`: an operation that throws
returns `.error e` and yields no updated heap, so the pre-call heap persists —
this mirrors a thrown JS exception leaving memory untouched after the throw
point.

The guest (Emscripten) runtime — `_malloc`, `_free`, `setValue`, `getValue`,
`stringToUTF8`, `UTF8ToString` — is not part of the repository; those
primitives are modelled from the spec's §6 boundary contract, each marked
`Modelled from the spec:` below.
-/

namespace WaspLib

/-- The six supported C numeric kinds (`C_NumberType` in `src/types.ts`). -/
inductive CType where
  | i8 | i16 | i32 | i64 | float | double
deriving DecidableEq, Repr

/-- `C_TYPE_SIZES` from `src/types.ts`: byte size of each kind. -/
def CType.size : CType → ℕ
  | .i8 => 1
  | .i16 => 2
  | .i32 => 4
  | .i64 => 8
  | .float => 4
  | .double => 8

/-- The own string keys of the `C_TYPE_SIZES` object literal
(`src/types.ts`). -/
def C_TYPE_KEYS : List String := ["i8", "i16", "i32", "i64", "float", "double"]

/-- The property names of `Object.prototype` in a standard JS engine
(ECMA-262 §20.2.3, plus the Annex B legacy accessor methods and
`__proto__`).  `C_TYPE_SIZES` is a plain object literal, so the JS `in`
operator — which consults the whole prototype chain — also answers `true`
for every one of these names. -/
def OBJECT_PROTO_KEYS : List String :=
  ["constructor", "hasOwnProperty", "isPrototypeOf", "propertyIsEnumerable",
   "toLocaleString", "toString", "valueOf", "__defineGetter__",
   "__defineSetter__", "__lookupGetter__", "__lookupSetter__", "__proto__"]

/-- Host-side value type of a kind: `bigint` (`ℤ`) for `i64`, a JS number
(`ℚ`) for every other kind — mirroring `T extends "i64" ? bigint : number`. -/
abbrev HostVal : CType → Type
  | .i64 => ℤ
  | .i8 => ℚ
  | .i16 => ℚ
  | .i32 => ℚ
  | .float => ℚ
  | .double => ℚ

/-- A memory cell of the modelled guest heap.  `int` holds the decoded signed
value of a narrow integer slot, `big` a 64-bit slot, `num` a float/double
slot, `str` the code points stored by the guest string codec. -/
inductive CVal where
  | int (v : ℤ)
  | big (v : ℤ)
  | num (v : ℚ)
  | str (cps : List ℕ)
deriving DecidableEq, Repr

/-- Thrown errors of the library.  Each constructor corresponds to one `throw
new Error(...)` site in the source; constructor arguments are the values the
source interpolates into the message string. -/
inductive Err where
  /-- "Cannot operate on freed or invalid pointer" (`base-pointer.ts`). -/
  | invalidPointer
  /-- "Out-of-bounds access: tried to write at index {index} in array of
  length {length}" (`array-pointer.ts`). -/
  | outOfBounds (index : ℚ) (length : ℕ)
  /-- "Array length mismatch. Expected {expected}, got {got}"
  (`array-pointer.ts`). -/
  | lengthMismatch (expected : ℕ) (got : ℕ)
  /-- "String length exceeds buffer size" (`string-pointer.ts`). -/
  | bufferOverflow
  /-- "Input must be exactly one character" (`type-converter.ts`,
  `char-pointer.ts`). -/
  | notOneChar
  /-- "Character ... is outside ASCII range (0-255)" (`type-converter.ts`). -/
  | charOutOfRange (code : ℕ)
  /-- "Invalid ASCII code: {code}. Must be 0-255" (`type-converter.ts`). -/
  | invalidAscii (code : ℚ)
  /-- "Unsupported number type: {t}" (`type-converter.ts`). -/
  | unsupportedType (t : String)
deriving DecidableEq, Repr

/-- JS `ToInteger` truncation toward zero, on exact rationals. -/
def qtrunc (q : ℚ) : ℤ := if 0 ≤ q then ⌊q⌋ else ⌈q⌉

/-- Two's-complement wrap of an integer to a signed `bits`-bit value. -/
def wrap (bits : ℕ) (z : ℤ) : ℤ := (z + 2 ^ (bits - 1)) % 2 ^ bits - 2 ^ (bits - 1)

/-- Encoding performed by the guest runtime's typed store for each kind:
narrow integer kinds truncate and wrap to their signed width, `i64` wraps to
64 bits, float kinds store the (assumed representable) value exactly. -/
def encodeVal : (t : CType) → HostVal t → CVal
  | .i8, v => .int (wrap 8 (qtrunc v))
  | .i16, v => .int (wrap 16 (qtrunc v))
  | .i32, v => .int (wrap 32 (qtrunc v))
  | .i64, v => .big (wrap 64 v)
  | .float, v => .num v
  | .double, v => .num v

/-- Decoding performed by the guest runtime's typed load for each kind.  A
cell of the wrong shape (type-confused or never-written garbage) decodes to 0;
no claim depends on that value. -/
def decodeVal : (t : CType) → CVal → HostVal t
  | .i8, .int z => (z : ℚ)
  | .i16, .int z => (z : ℚ)
  | .i32, .int z => (z : ℚ)
  | .i64, .big z => z
  | .float, .num q => q
  | .double, .num q => q
  | .i64, _ => 0
  | .i8, _ => 0
  | .i16, _ => 0
  | .i32, _ => 0
  | .float, _ => 0
  | .double, _ => 0

/-- `v` is representable at kind `t`'s width: an integral value in the signed
range for the integer kinds, a dyadic rational within the IEEE-754
binary32/binary64 mantissa and exponent bounds for the float kinds. -/
def RepIn : (t : CType) → HostVal t → Prop
  | .i8, v => v.den = 1 ∧ -(2 ^ 7) ≤ v.num ∧ v.num < 2 ^ 7
  | .i16, v => v.den = 1 ∧ -(2 ^ 15) ≤ v.num ∧ v.num < 2 ^ 15
  | .i32, v => v.den = 1 ∧ -(2 ^ 31) ≤ v.num ∧ v.num < 2 ^ 31
  | .i64, v => -(2 ^ 63) ≤ v ∧ v < 2 ^ 63
  | .float, v => ∃ m e : ℤ, |m| < 2 ^ 24 ∧ -149 ≤ e ∧ e ≤ 104 ∧ v = m * (2 : ℚ) ^ e
  | .double, v => ∃ m e : ℤ, |m| < 2 ^ 53 ∧ -1074 ≤ e ∧ e ≤ 971 ∧ v = m * (2 : ℚ) ^ e

/-- Modelled from the spec: the guest heap (§6 boundary).  `mem` is the cell
content at each (byte) address — the initial function is arbitrary, capturing
that raw allocation is "not guaranteed zero" (§4.4); `next` drives the bump
allocator; `allocs` logs every `allocate(size)` request `(address, size)`;
`freed` logs every `release(address)`. -/
structure WasmHeap where
  mem : ℚ → CVal
  next : ℕ
  allocs : List (ℕ × ℕ)
  freed : List ℕ

/-- Overwrite the cell at address `a`. -/
def WasmHeap.setCell (h : WasmHeap) (a : ℚ) (c : CVal) : WasmHeap :=
  { h with mem := fun x => if x = a then c else h.mem x }

/-- Modelled from the spec: `allocate(sizeInBytes) → address` (§6).  Returns a
fresh nonzero address (0 is the "no allocation" sentinel) and records the
requested size. -/
def wasmMalloc (h : WasmHeap) (size : ℕ) : ℕ × WasmHeap :=
  let a := h.next + 1
  (a, { h with next := h.next + 1 + size, allocs := h.allocs ++ [(a, size)] })

/-- Modelled from the spec: `release(address) → void` (§6).  Deallocation has
no observable effect on cells; the call is recorded. -/
def wasmFree (h : WasmHeap) (a : ℕ) : WasmHeap :=
  { h with freed := h.freed ++ [a] }

/-- Modelled from the spec: `writeTyped(address, value, kind)` (§6), width and
signedness mirroring the kind's native encoding (§4.5). -/
def writeTyped (h : WasmHeap) (a : ℚ) (t : CType) (v : HostVal t) : WasmHeap :=
  h.setCell a (encodeVal t v)

/-- Modelled from the spec: `readTyped(address, kind) → value` (§6). -/
def readTyped (h : WasmHeap) (a : ℚ) (t : CType) : HostVal t :=
  decodeVal t (h.mem a)

/-- UTF-8 byte length of a JS string given as UTF-16 code units: ASCII takes
1 byte, units below 0x800 take 2, a surrogate pair takes 4, any other unit
(including an unpaired surrogate, as in Emscripten's codec) takes 3. -/
def utf8UnitsLen : List ℕ → ℕ
  | [] => 0
  | u :: v :: rest =>
    if u < 128 then 1 + utf8UnitsLen (v :: rest)
    else if u < 2048 then 2 + utf8UnitsLen (v :: rest)
    else if 55296 ≤ u ∧ u < 56320 ∧ 56320 ≤ v ∧ v < 57344 then 4 + utf8UnitsLen rest
    else 3 + utf8UnitsLen (v :: rest)
  | [u] => if u < 128 then 1 else if u < 2048 then 2 else 3

/-- Maximal prefix of the code units whose UTF-8 encoding fits in `budget`
bytes, truncating only at code-point boundaries. -/
def utf8TakeFit : List ℕ → ℕ → List ℕ
  | [], _ => []
  | u :: v :: rest, budget =>
    if u < 128 then
      if 1 ≤ budget then u :: utf8TakeFit (v :: rest) (budget - 1) else []
    else if u < 2048 then
      if 2 ≤ budget then u :: utf8TakeFit (v :: rest) (budget - 2) else []
    else if 55296 ≤ u ∧ u < 56320 ∧ 56320 ≤ v ∧ v < 57344 then
      if 4 ≤ budget then u :: v :: utf8TakeFit rest (budget - 4) else []
    else
      if 3 ≤ budget then u :: utf8TakeFit (v :: rest) (budget - 3) else []
  | [u], budget =>
    if u < 128 then (if 1 ≤ budget then [u] else [])
    else if u < 2048 then (if 2 ≤ budget then [u] else [])
    else (if 3 ≤ budget then [u] else [])

/-- Modelled from the spec: `encodeUTF8(text, address, maxBytes)` (§6) —
"encodes text as UTF-8 with a trailing null terminator into the buffer,
zero-padding/truncating per the guest runtime's string-encode primitive"
(§4.6).  Stores at `address` the written code units: the maximal prefix whose
encoding plus a terminator fits in `maxBytes`. -/
def encodeUTF8 (h : WasmHeap) (a : ℚ) (s : List ℕ) (maxBytes : ℕ) : WasmHeap :=
  h.setCell a (.str (utf8TakeFit s (maxBytes - 1)))

/-- Modelled from the spec: `decodeUTF8(address)` (§6) — decoding stops at the
first null (§4.6). -/
def decodeUTF8 (h : WasmHeap) (a : ℚ) : List ℕ :=
  match h.mem a with
  | .str cps => cps.takeWhile (· ≠ 0)
  | _ => []

/-! ## TypeConverter (`src/type-converter.ts`) -/

namespace TypeConverter

/-- `TypeConverter.boolToC`. -/
def boolToC (value : Bool) : ℤ := if value then 1 else 0

/-- `TypeConverter.boolFromC`: JS `Boolean(value)` — any nonzero number is
`true`. -/
def boolFromC (value : ℚ) : Bool := value != 0

/-- `TypeConverter.charToC`.  The input is a JS string as UTF-16 code units,
so `charCodeAt(0)` is its first element; the source's `code < 0` branch is
unreachable (`charCodeAt` is never negative) and drops out of the model. -/
def charToC (char : List ℕ) : Except Err ℕ :=
  if char.length ≠ 1 then .error .notOneChar
  else
    let code := char.headI
    if 255 < code then .error (.charOutOfRange code) else .ok code

/-- `TypeConverter.charFromC`: requires an integer in 0–255. -/
def charFromC (code : ℚ) : Except Err (List ℕ) :=
  if ¬(code.den = 1 ∧ 0 ≤ code.num ∧ code.num ≤ 255) then
    .error (.invalidAscii code)
  else
    .ok [code.num.toNat]

/-- `TypeConverter.validateNumberType`: `if (!(type in C_TYPE_SIZES)) throw;
return true`.  JS `in` holds for the object's own keys and for every
property inherited from `Object.prototype`, so names like `"toString"` pass
the check and the function returns `true` for them without throwing. -/
def validateNumberType (type : String) : Except Err Bool :=
  if ¬(type ∈ C_TYPE_KEYS ∨ type ∈ OBJECT_PROTO_KEYS) then
    .error (.unsupportedType type)
  else .ok true

end TypeConverter

/-! ## BasePointer (`src/pointer/base-pointer.ts`) -/

/-- The state of `BasePointer` that the library mutates: the raw address
(`_ptr`), 0 meaning freed/invalid. -/
structure BasePtr where
  ptr : ℕ
deriving DecidableEq, Repr

/-- `BasePointer.isValid`. -/
def BasePtr.isValid (p : BasePtr) : Bool := p.ptr != 0

/-- `BasePointer.validatePointer`. -/
def BasePtr.validatePointer (p : BasePtr) : Except Err Unit :=
  if p.isValid then .ok () else .error .invalidPointer

/-- `BasePointer.free`: if the pointer is nonzero, free it in the guest and
zero the address; otherwise do nothing.  Never throws. -/
def BasePtr.free (p : BasePtr) (h : WasmHeap) : BasePtr × WasmHeap :=
  if p.ptr ≠ 0 then (⟨0⟩, wasmFree h p.ptr) else (p, h)

/-- `BasePointer.readAndFree`: validate, delegate to the subclass `read`
(here a function of the heap, closing over the subclass's fields), free, and
return the value together with the mutated pointer and heap. -/
def readAndFreeG {α : Type} (p : BasePtr) (h : WasmHeap)
    (readFn : WasmHeap → Except Err α) : Except Err (α × BasePtr × WasmHeap) := do
  p.validatePointer
  let value ← readFn h
  let (p2, h2) := p.free h
  .ok (value, p2, h2)

/-! ## ArrayPointer (`src/pointer/array-pointer.ts`) -/

/-- Modelled from the spec: `toFixedLengthArray` of the external
`fixed-len-array` dependency — trims or pads `xs` to exactly `n` entries with
the pad value `fill`.  The source pads with `null`; the pad is unreachable in
`ArrayPointer.read`, which always supplies exactly `n` elements, so the model
takes the (irrelevant) pad value from the caller. -/
def toFixedLengthArray {α : Type} (xs : List α) (n : ℕ) (fill : α) : List α :=
  xs.take n ++ List.replicate (n - xs.length) fill

/-- `ArrayPointer<T>`: base pointer plus element type and declared length. -/
structure ArrayPointer (t : CType) where
  base : BasePtr
  length : ℕ
deriving DecidableEq, Repr

/-- The `ArrayPointer` constructor with no pre-existing pointer: mallocs
`length * C_TYPE_SIZES[type]` bytes (also `ArrayPointer.alloc`). -/
def ArrayPointer.alloc (h : WasmHeap) (t : CType) (length : ℕ) :
    ArrayPointer t × WasmHeap :=
  let (a, h2) := wasmMalloc h (length * t.size)
  (⟨⟨a⟩, length⟩, h2)

/-- `ArrayPointer.add`: validate, then bounds-check `loc >= 0 && loc <
length` (a JS number comparison — `loc` is `ℚ`), then `setValue` at `ptr +
loc * size`. -/
def ArrayPointer.add {t : CType} (p : ArrayPointer t) (h : WasmHeap) (loc : ℚ)
    (val : HostVal t) : Except Err WasmHeap := do
  p.base.validatePointer
  if 0 ≤ loc ∧ loc < (p.length : ℚ) then
    .ok (writeTyped h ((p.base.ptr : ℚ) + loc * (t.size : ℚ)) t val)
  else
    .error (.outOfBounds loc p.length)

/-- `ArrayPointer.read`: validate, `getValue` each of the `length` slots,
then trim/pad to the fixed length. -/
def ArrayPointer.read {t : CType} (p : ArrayPointer t) (h : WasmHeap) :
    Except Err (List (HostVal t)) := do
  p.base.validatePointer
  let array := (List.range p.length).map fun (i : ℕ) =>
    readTyped h ((p.base.ptr : ℚ) + (i : ℚ) * (t.size : ℚ)) t
  .ok (toFixedLengthArray array p.length (decodeVal t (.int 0)))

/-- `ArrayPointer.write`: validate, reject `values.length > length`, then
write element-by-element through `add`. -/
def ArrayPointer.write {t : CType} (p : ArrayPointer t) (h : WasmHeap)
    (values : List (HostVal t)) : Except Err WasmHeap := do
  p.base.validatePointer
  if values.length > p.length then
    .error (.lengthMismatch p.length values.length)
  else
    values.enum.foldlM (fun hh iv => p.add hh (iv.1 : ℚ) iv.2) h

/-- `ArrayPointer.from`: alloc then bulk write. -/
def ArrayPointer.from (h : WasmHeap) (t : CType) (length : ℕ)
    (input : List (HostVal t)) : Except Err (ArrayPointer t × WasmHeap) :=
  let (arr, h2) := ArrayPointer.alloc h t length
  match arr.write h2 input with
  | .error e => .error e
  | .ok h3 => .ok (arr, h3)

/-- `free` as inherited by `ArrayPointer`. -/
def ArrayPointer.free {t : CType} (p : ArrayPointer t) (h : WasmHeap) :
    ArrayPointer t × WasmHeap :=
  ({ p with base := (p.base.free h).1 }, (p.base.free h).2)

/-! ## NumberPointer (`src/pointer/number-pointer.ts`) -/

/-- `NumberPointer<T>`: base pointer plus element type. -/
structure NumberPointer (t : CType) where
  base : BasePtr
deriving DecidableEq, Repr

/-- The `NumberPointer` constructor with no pre-existing pointer: mallocs
`C_TYPE_SIZES[type]` bytes (also `NumberPointer.alloc`). -/
def NumberPointer.alloc (h : WasmHeap) (t : CType) : NumberPointer t × WasmHeap :=
  let (a, h2) := wasmMalloc h t.size
  (⟨⟨a⟩⟩, h2)

/-- `NumberPointer.add`: validate, then `setValue` at `ptr`. -/
def NumberPointer.add {t : CType} (p : NumberPointer t) (h : WasmHeap)
    (val : HostVal t) : Except Err WasmHeap := do
  p.base.validatePointer
  .ok (writeTyped h (p.base.ptr : ℚ) t val)

/-- `NumberPointer.write`: validate, then `add`. -/
def NumberPointer.write {t : CType} (p : NumberPointer t) (h : WasmHeap)
    (values : HostVal t) : Except Err WasmHeap := do
  p.base.validatePointer
  p.add h values

/-- `NumberPointer.from`: alloc then write. -/
def NumberPointer.from (h : WasmHeap) (t : CType) (input : HostVal t) :
    Except Err (NumberPointer t × WasmHeap) :=
  let (np, h2) := NumberPointer.alloc h t
  match np.write h2 input with
  | .error e => .error e
  | .ok h3 => .ok (np, h3)

/-- `NumberPointer.read`: validate, then `getValue` at `ptr`. -/
def NumberPointer.read {t : CType} (p : NumberPointer t) (h : WasmHeap) :
    Except Err (HostVal t) := do
  p.base.validatePointer
  .ok (readTyped h (p.base.ptr : ℚ) t)

/-- `free` as inherited by `NumberPointer`. -/
def NumberPointer.free {t : CType} (p : NumberPointer t) (h : WasmHeap) :
    NumberPointer t × WasmHeap :=
  ({ p with base := (p.base.free h).1 }, (p.base.free h).2)

/-! ## StringPointer (`src/pointer/string-pointer.ts`) -/

/-- `StringPointer`: base pointer plus the reserved length in bytes. -/
structure StringPointer where
  base : BasePtr
  length : ℕ
deriving DecidableEq, Repr

/-- The `StringPointer` constructor with no pre-existing pointer: mallocs
`length * C_TYPE_SIZES.i8` bytes (also `StringPointer.alloc`). -/
def StringPointer.alloc (h : WasmHeap) (length : ℕ) : StringPointer × WasmHeap :=
  let (a, h2) := wasmMalloc h (length * CType.size .i8)
  (⟨⟨a⟩, length⟩, h2)

/-- `StringPointer.write`: validate, throw if `input.length + 1 >
this.length` (note: `input.length` is the UTF-16 code-unit count, not the
UTF-8 byte count), else `stringToUTF8(input, ptr, this.length)`. -/
def StringPointer.write (p : StringPointer) (h : WasmHeap) (input : List ℕ) :
    Except Err WasmHeap := do
  p.base.validatePointer
  if input.length + 1 > p.length then
    .error .bufferOverflow
  else
    .ok (encodeUTF8 h (p.base.ptr : ℚ) input p.length)

/-- `StringPointer.from`: alloc `length + 1` bytes (the `+1` for the null
terminator) then write `input`. -/
def StringPointer.from (h : WasmHeap) (length : ℕ) (input : List ℕ) :
    Except Err (StringPointer × WasmHeap) :=
  let (sp, h2) := StringPointer.alloc h (length + 1)
  match sp.write h2 input with
  | .error e => .error e
  | .ok h3 => .ok (sp, h3)

/-- `StringPointer.read`: validate, then `UTF8ToString(ptr)`. -/
def StringPointer.read (p : StringPointer) (h : WasmHeap) :
    Except Err (List ℕ) := do
  p.base.validatePointer
  .ok (decodeUTF8 h (p.base.ptr : ℚ))

/-- `free` as inherited by `StringPointer`. -/
def StringPointer.free (p : StringPointer) (h : WasmHeap) :
    StringPointer × WasmHeap :=
  ({ p with base := (p.base.free h).1 }, (p.base.free h).2)

/-! ## CharPointer (`src/pointer/char-pointer.ts`) -/

/-- `CharPointer`: a single C `char` in WASM memory. -/
structure CharPointer where
  base : BasePtr
deriving DecidableEq, Repr

/-- `CharPointer.write`: validate, `charToC`, then `setValue(ptr, cVal,
"i8")`. -/
def CharPointer.write (p : CharPointer) (h : WasmHeap) (input : List ℕ) :
    Except Err WasmHeap := do
  p.base.validatePointer
  match TypeConverter.charToC input with
  | .error e => .error e
  | .ok code => .ok (writeTyped h (p.base.ptr : ℚ) .i8 (code : ℚ))

/-- The `CharPointer` constructor with no pre-existing pointer: mallocs one
byte then `write("\0")` (also `CharPointer.alloc`).  That write cannot throw
(fresh nonzero pointer, one in-range character), so the error fallback is
unreachable. -/
def CharPointer.alloc (h : WasmHeap) : CharPointer × WasmHeap :=
  let (a, h2) := wasmMalloc h (CType.size .i8)
  let cp : CharPointer := ⟨⟨a⟩⟩
  match cp.write h2 [0] with
  | .ok h3 => (cp, h3)
  | .error _ => (cp, h2)

/-- `CharPointer.from`: its own one-character check, then alloc and write. -/
def CharPointer.from (h : WasmHeap) (input : List ℕ) :
    Except Err (CharPointer × WasmHeap) :=
  if input.length ≠ 1 then .error .notOneChar
  else
    let (cp, h2) := CharPointer.alloc h
    match cp.write h2 input with
    | .error e => .error e
    | .ok h3 => .ok (cp, h3)

/-- `CharPointer.read`: validate, `getValue(ptr, "i8")`, then `charFromC`. -/
def CharPointer.read (p : CharPointer) (h : WasmHeap) :
    Except Err (List ℕ) := do
  p.base.validatePointer
  TypeConverter.charFromC (readTyped h (p.base.ptr : ℚ) .i8)

/-- `free` as inherited by `CharPointer`. -/
def CharPointer.free (p : CharPointer) (h : WasmHeap) :
    CharPointer × WasmHeap :=
  ({ p with base := (p.base.free h).1 }, (p.base.free h).2)

/-! ## BoolPointer (`src/pointer/bool-pointer.ts`) -/

/-- `BoolPointer`: a single C boolean in WASM memory. -/
structure BoolPointer where
  base : BasePtr
deriving DecidableEq, Repr

/-- `BoolPointer.write`: validate, `boolToC`, then `setValue(ptr, cVal,
"i8")`. -/
def BoolPointer.write (p : BoolPointer) (h : WasmHeap) (value : Bool) :
    Except Err WasmHeap := do
  p.base.validatePointer
  .ok (writeTyped h (p.base.ptr : ℚ) .i8 ((TypeConverter.boolToC value : ℤ) : ℚ))

/-- The `BoolPointer` constructor with no pre-existing pointer: mallocs one
byte then `write(false)` (also `BoolPointer.alloc`).  That write cannot throw
(fresh nonzero pointer), so the error fallback is unreachable. -/
def BoolPointer.alloc (h : WasmHeap) : BoolPointer × WasmHeap :=
  let (a, h2) := wasmMalloc h (CType.size .i8)
  let bp : BoolPointer := ⟨⟨a⟩⟩
  match bp.write h2 false with
  | .ok h3 => (bp, h3)
  | .error _ => (bp, h2)

/-- `BoolPointer.from`: alloc then write. -/
def BoolPointer.from (h : WasmHeap) (value : Bool) :
    Except Err (BoolPointer × WasmHeap) :=
  let (bp, h2) := BoolPointer.alloc h
  match bp.write h2 value with
  | .error e => .error e
  | .ok h3 => .ok (bp, h3)

/-- `BoolPointer.read`: validate, `getValue(ptr, "i8")`, then `boolFromC`. -/
def BoolPointer.read (p : BoolPointer) (h : WasmHeap) : Except Err Bool := do
  p.base.validatePointer
  .ok (TypeConverter.boolFromC (readTyped h (p.base.ptr : ℚ) .i8))

/-- `free` as inherited by `BoolPointer`. -/
def BoolPointer.free (p : BoolPointer) (h : WasmHeap) :
    BoolPointer × WasmHeap :=
  ({ p with base := (p.base.free h).1 }, (p.base.free h).2)

/-- A concrete heap for witnesses: all cells `0`, nothing allocated. -/
def emptyHeap : WasmHeap := { mem := fun _ => .int 0, next := 0, allocs := [], freed := [] }

/-! ## Helper lemmas -/

theorem BasePtr.validate_of_ne (p : BasePtr) (hv : p.ptr ≠ 0) :
    p.validatePointer = .ok () := by
  simp [BasePtr.validatePointer, BasePtr.isValid, hv]

theorem BasePtr.validate_of_eq (p : BasePtr) (hz : p.ptr = 0) :
    p.validatePointer = .error .invalidPointer := by
  simp [BasePtr.validatePointer, BasePtr.isValid, hz]

theorem BasePtr.free_fst_ptr (p : BasePtr) (h : WasmHeap) :
    (p.free h).1.ptr = 0 := by
  by_cases hz : p.ptr = 0
  · simp [BasePtr.free, hz]
  · simp [BasePtr.free, hz]

theorem BasePtr.free_of_eq (p : BasePtr) (h : WasmHeap) (hz : p.ptr = 0) :
    p.free h = (p, h) := by
  simp [BasePtr.free, hz]

theorem CType.size_pos (t : CType) : 0 < t.size := by cases t <;> decide

theorem exceptBind_ok {β γ : Type} (x : β) (f : β → Except Err γ) :
    (Except.ok x : Except Err β) >>= f = f x := rfl

theorem exceptBind_error {β γ : Type} (e : Err) (f : β → Except Err γ) :
    (Except.error e : Except Err β) >>= f = .error e := rfl

theorem ArrayPointer.arr_read_inv {t : CType} (p : ArrayPointer t) (h : WasmHeap)
    (hz : p.base.ptr = 0) : p.read h = .error .invalidPointer := by
  simp only [ArrayPointer.read, BasePtr.validate_of_eq p.base hz]
  rfl

theorem ArrayPointer.arr_write_inv {t : CType} (p : ArrayPointer t) (h : WasmHeap)
    (vals : List (HostVal t)) (hz : p.base.ptr = 0) :
    p.write h vals = .error .invalidPointer := by
  simp only [ArrayPointer.write, BasePtr.validate_of_eq p.base hz]
  rfl

theorem ArrayPointer.arr_add_inv {t : CType} (p : ArrayPointer t) (h : WasmHeap)
    (loc : ℚ) (v : HostVal t) (hz : p.base.ptr = 0) :
    p.add h loc v = .error .invalidPointer := by
  simp only [ArrayPointer.add, BasePtr.validate_of_eq p.base hz]
  rfl

theorem NumberPointer.num_read_inv {t : CType} (p : NumberPointer t) (h : WasmHeap)
    (hz : p.base.ptr = 0) : p.read h = .error .invalidPointer := by
  simp only [NumberPointer.read, BasePtr.validate_of_eq p.base hz]
  rfl

theorem NumberPointer.num_write_inv {t : CType} (p : NumberPointer t) (h : WasmHeap)
    (v : HostVal t) (hz : p.base.ptr = 0) :
    p.write h v = .error .invalidPointer := by
  simp only [NumberPointer.write, BasePtr.validate_of_eq p.base hz]
  rfl

theorem NumberPointer.num_add_inv {t : CType} (p : NumberPointer t) (h : WasmHeap)
    (v : HostVal t) (hz : p.base.ptr = 0) :
    p.add h v = .error .invalidPointer := by
  simp only [NumberPointer.add, BasePtr.validate_of_eq p.base hz]
  rfl

theorem StringPointer.str_read_inv (p : StringPointer) (h : WasmHeap)
    (hz : p.base.ptr = 0) : p.read h = .error .invalidPointer := by
  simp only [StringPointer.read, BasePtr.validate_of_eq p.base hz]
  rfl

theorem StringPointer.str_write_inv (p : StringPointer) (h : WasmHeap)
    (s : List ℕ) (hz : p.base.ptr = 0) :
    p.write h s = .error .invalidPointer := by
  simp only [StringPointer.write, BasePtr.validate_of_eq p.base hz]
  rfl

theorem CharPointer.char_read_inv (p : CharPointer) (h : WasmHeap)
    (hz : p.base.ptr = 0) : p.read h = .error .invalidPointer := by
  simp only [CharPointer.read, BasePtr.validate_of_eq p.base hz]
  rfl

theorem CharPointer.char_write_inv (p : CharPointer) (h : WasmHeap)
    (s : List ℕ) (hz : p.base.ptr = 0) :
    p.write h s = .error .invalidPointer := by
  simp only [CharPointer.write, BasePtr.validate_of_eq p.base hz]
  rfl

theorem BoolPointer.bool_read_inv (p : BoolPointer) (h : WasmHeap)
    (hz : p.base.ptr = 0) : p.read h = .error .invalidPointer := by
  simp only [BoolPointer.read, BasePtr.validate_of_eq p.base hz]
  rfl

theorem BoolPointer.bool_write_inv (p : BoolPointer) (h : WasmHeap)
    (b : Bool) (hz : p.base.ptr = 0) :
    p.write h b = .error .invalidPointer := by
  simp only [BoolPointer.write, BasePtr.validate_of_eq p.base hz]
  rfl

/-! ## Claim theorems -/

/-- C1: for every concrete handle (ArrayPointer, NumberPointer, StringPointer,
CharPointer, BoolPointer), after `free()` the address is 0, every subsequent
`read`/`write`/`add` fails with the Invalid-Pointer error, and calling
`free()` again is a no-op that raises no error (by its type, `free` cannot
throw) and leaves the address at 0. -/
theorem pointer_free_lifecycle (h : WasmHeap) (t : CType)
    (ap : ArrayPointer t) (np : NumberPointer t) (sp : StringPointer)
    (cp : CharPointer) (bp : BoolPointer) (loc : ℚ) (v : HostVal t)
    (vals : List (HostVal t)) (s : List ℕ) (b : Bool) :
    ((ap.free h).1.base.ptr = 0 ∧
      (ap.free h).1.read (ap.free h).2 = .error .invalidPointer ∧
      (ap.free h).1.write (ap.free h).2 vals = .error .invalidPointer ∧
      (ap.free h).1.add (ap.free h).2 loc v = .error .invalidPointer ∧
      (ap.free h).1.free (ap.free h).2 = ((ap.free h).1, (ap.free h).2)) ∧
    ((np.free h).1.base.ptr = 0 ∧
      (np.free h).1.read (np.free h).2 = .error .invalidPointer ∧
      (np.free h).1.write (np.free h).2 v = .error .invalidPointer ∧
      (np.free h).1.add (np.free h).2 v = .error .invalidPointer ∧
      (np.free h).1.free (np.free h).2 = ((np.free h).1, (np.free h).2)) ∧
    ((sp.free h).1.base.ptr = 0 ∧
      (sp.free h).1.read (sp.free h).2 = .error .invalidPointer ∧
      (sp.free h).1.write (sp.free h).2 s = .error .invalidPointer ∧
      (sp.free h).1.free (sp.free h).2 = ((sp.free h).1, (sp.free h).2)) ∧
    ((cp.free h).1.base.ptr = 0 ∧
      (cp.free h).1.read (cp.free h).2 = .error .invalidPointer ∧
      (cp.free h).1.write (cp.free h).2 s = .error .invalidPointer ∧
      (cp.free h).1.free (cp.free h).2 = ((cp.free h).1, (cp.free h).2)) ∧
    ((bp.free h).1.base.ptr = 0 ∧
      (bp.free h).1.read (bp.free h).2 = .error .invalidPointer ∧
      (bp.free h).1.write (bp.free h).2 b = .error .invalidPointer ∧
      (bp.free h).1.free (bp.free h).2 = ((bp.free h).1, (bp.free h).2)) := by
  have hza : (ap.free h).1.base.ptr = 0 := BasePtr.free_fst_ptr ap.base h
  have hzn : (np.free h).1.base.ptr = 0 := BasePtr.free_fst_ptr np.base h
  have hzs : (sp.free h).1.base.ptr = 0 := BasePtr.free_fst_ptr sp.base h
  have hzc : (cp.free h).1.base.ptr = 0 := BasePtr.free_fst_ptr cp.base h
  have hzb : (bp.free h).1.base.ptr = 0 := BasePtr.free_fst_ptr bp.base h
  refine ⟨⟨hza, ArrayPointer.arr_read_inv _ _ hza, ArrayPointer.arr_write_inv _ _ _ hza,
      ArrayPointer.arr_add_inv _ _ _ _ hza, ?_⟩,
    ⟨hzn, NumberPointer.num_read_inv _ _ hzn, NumberPointer.num_write_inv _ _ _ hzn,
      NumberPointer.num_add_inv _ _ _ hzn, ?_⟩,
    ⟨hzs, StringPointer.str_read_inv _ _ hzs, StringPointer.str_write_inv _ _ _ hzs, ?_⟩,
    ⟨hzc, CharPointer.char_read_inv _ _ hzc, CharPointer.char_write_inv _ _ _ hzc, ?_⟩,
    ⟨hzb, BoolPointer.bool_read_inv _ _ hzb, BoolPointer.bool_write_inv _ _ _ hzb, ?_⟩⟩
  · simp [ArrayPointer.free, BasePtr.free_of_eq _ _ (BasePtr.free_fst_ptr ap.base h)]
  · simp [NumberPointer.free, BasePtr.free_of_eq _ _ (BasePtr.free_fst_ptr np.base h)]
  · simp [StringPointer.free, BasePtr.free_of_eq _ _ (BasePtr.free_fst_ptr sp.base h)]
  · simp [CharPointer.free, BasePtr.free_of_eq _ _ (BasePtr.free_fst_ptr cp.base h)]
  · simp [BoolPointer.free, BasePtr.free_of_eq _ _ (BasePtr.free_fst_ptr bp.base h)]

/-- C3 counterexample: `validateNumberType` does not return a boolean for
every input — on the unsupported kind `"foo"` it throws the Unsupported-Type
error instead of returning `false`. -/
theorem validateNumberType_throws_cex :
    TypeConverter.validateNumberType "foo" = .error (.unsupportedType "foo") := by
  rfl

/-- C3 (amended): `validateNumberType` returns `true` — never `false` — for
the six supported kind identifiers and, because the JS `in` operator
consults the prototype chain, also for the `Object.prototype` property
names (`"toString"`, `"valueOf"`, `"hasOwnProperty"`, …); every other
string makes it throw the Unsupported-Type error naming the offending
kind. -/
theorem validateNumberType_spec (s : String) :
    (TypeConverter.validateNumberType s = .ok true ↔
      (s ∈ C_TYPE_KEYS ∨ s ∈ OBJECT_PROTO_KEYS)) ∧
    TypeConverter.validateNumberType s ≠ .ok false ∧
    (s ∈ C_TYPE_KEYS → TypeConverter.validateNumberType s = .ok true) ∧
    (s ∉ C_TYPE_KEYS → s ∉ OBJECT_PROTO_KEYS →
      TypeConverter.validateNumberType s = .error (.unsupportedType s)) := by
  unfold TypeConverter.validateNumberType
  by_cases hm : s ∈ C_TYPE_KEYS ∨ s ∈ OBJECT_PROTO_KEYS
  · rw [if_neg (not_not_intro hm)]
    exact ⟨iff_of_true rfl hm, by simp, fun _ => rfl,
      fun hk hp => absurd hm (by rintro (hc | hc); exacts [hk hc, hp hc])⟩
  · rw [if_pos hm]
    exact ⟨iff_of_false (by simp) hm, by simp,
      fun hk => absurd (Or.inl hk) hm, fun _ _ => rfl⟩

/-- Witness for C3 (amended) at the inherited property name `"toString"`:
it passes the `in` check and returns `true` without throwing. -/
theorem validateNumberType_spec_witness :
    (TypeConverter.validateNumberType "toString" = .ok true ↔
      ("toString" ∈ C_TYPE_KEYS ∨ "toString" ∈ OBJECT_PROTO_KEYS)) ∧
    TypeConverter.validateNumberType "toString" ≠ .ok false ∧
    ("toString" ∈ C_TYPE_KEYS →
      TypeConverter.validateNumberType "toString" = .ok true) ∧
    ("toString" ∉ C_TYPE_KEYS → "toString" ∉ OBJECT_PROTO_KEYS →
      TypeConverter.validateNumberType "toString"
        = .error (.unsupportedType "toString")) :=
  validateNumberType_spec "toString"

/-- C6: on a valid ArrayPointer, `add(index, v)` with the (JS-number) index
outside `[0, length)` fails with the Out-of-Bounds error carrying the
offending index and the declared length; the heap is not touched (the error
is raised instead of a write). -/
theorem arrayPointer_add_oob {t : CType} (p : ArrayPointer t) (h : WasmHeap)
    (loc : ℚ) (v : HostVal t) (hv : p.base.ptr ≠ 0)
    (hoob : ¬(0 ≤ loc ∧ loc < (p.length : ℚ))) :
    p.add h loc v = .error (.outOfBounds loc p.length) := by
  simp [ArrayPointer.add, BasePtr.validate_of_ne p.base hv, hoob]
  rfl

/-- Witness for C6: index 2 in an array of length 2 (the spec's own concrete
scenario). -/
theorem arrayPointer_add_oob_witness :
    ArrayPointer.add (t := .i8) ⟨⟨4⟩, 2⟩ emptyHeap 2 5 =
      .error (.outOfBounds 2 2) :=
  arrayPointer_add_oob ⟨⟨4⟩, 2⟩ emptyHeap 2 5 (by decide) (by norm_num)

/-- C7: on a valid ArrayPointer, a bulk `write` whose input is longer than
the declared length fails with the Length-Mismatch error carrying the
declared capacity and the offending length, before any element is written
(the guard precedes the element loop, so the heap is untouched). -/
theorem arrayPointer_write_mismatch {t : CType} (p : ArrayPointer t)
    (h : WasmHeap) (vals : List (HostVal t)) (hv : p.base.ptr ≠ 0)
    (hgt : vals.length > p.length) :
    p.write h vals = .error (.lengthMismatch p.length vals.length) := by
  simp [ArrayPointer.write, BasePtr.validate_of_ne p.base hv, hgt]
  rfl

/-- Witness for C7: three values into an array of declared length 2. -/
theorem arrayPointer_write_mismatch_witness :
    ArrayPointer.write (t := .i32) ⟨⟨4⟩, 2⟩ emptyHeap [1, 2, 3] =
      .error (.lengthMismatch 2 3) :=
  arrayPointer_write_mismatch ⟨⟨4⟩, 2⟩ emptyHeap [1, 2, 3] (by decide) (by decide)

/-- C2 counterexample: the overflow guard is not the UTF-8 byte length.  For
the one-unit string `"é"` (code point 233: one UTF-16 unit, two UTF-8 bytes)
and a reserved length of 2, the UTF-8 byte length plus the terminator is 3 >
2, yet `write` succeeds instead of failing. -/
theorem stringWrite_utf8_guard_cex :
    utf8UnitsLen [233] + 1 > (StringPointer.alloc emptyHeap 2).1.length ∧
    ((StringPointer.alloc emptyHeap 2).1.write
        (StringPointer.alloc emptyHeap 2).2 [233]).isOk = true := by
  constructor
  · decide
  · rfl

/-- C2 (amended): on a valid StringPointer, `write(text)` fails with the
Buffer-Overflow error iff `text`'s UTF-16 code-unit count plus one exceeds
the reserved length (not its UTF-8 byte length); on failure nothing is
written — the error is raised before the guest string-encode call. -/
theorem stringWrite_guard (p : StringPointer) (h : WasmHeap) (input : List ℕ)
    (hv : p.base.ptr ≠ 0) :
    p.write h input =
      if input.length + 1 > p.length then .error .bufferOverflow
      else .ok (encodeUTF8 h (p.base.ptr : ℚ) input p.length) := by
  simp only [StringPointer.write, BasePtr.validate_of_ne p.base hv]
  rfl

/-- Witness for C2 (amended): a 1-unit string into a 2-byte buffer. -/
theorem stringWrite_guard_witness :
    StringPointer.write ⟨⟨1⟩, 2⟩ emptyHeap [233] =
      if [233].length + 1 > (StringPointer.mk ⟨1⟩ 2).length then
        .error .bufferOverflow
      else
        .ok (encodeUTF8 emptyHeap ((StringPointer.mk ⟨1⟩ 2).base.ptr : ℚ)
          [233] (StringPointer.mk ⟨1⟩ 2).length) :=
  stringWrite_guard ⟨⟨1⟩, 2⟩ emptyHeap [233] (by decide)

/-- Projection of the allocation log out of a possibly-failed
`StringPointer` construction (empty on the error path, where the model drops
the intermediate heap). -/
def allocsOf : Except Err (StringPointer × WasmHeap) → List (ℕ × ℕ)
  | .ok (_, hh) => hh.allocs
  | .error _ => []

/-- C9: `StringPointer.alloc(c)` requests exactly `c` bytes from the guest
allocator (no implicit +1), while `StringPointer.from(c, input)` requests
exactly `c + 1` bytes before writing `input`. -/
theorem stringPointer_capacity (h : WasmHeap) (c : ℕ) (input : List ℕ)
    (hfit : input.length ≤ c) :
    (StringPointer.alloc h c).2.allocs
        = h.allocs ++ [((StringPointer.alloc h c).1.base.ptr, c)] ∧
    (StringPointer.from h c input).isOk = true ∧
    allocsOf (StringPointer.from h c input) = h.allocs ++ [(h.next + 1, c + 1)] := by
  have hguard : ¬(input.length + 1 > c + 1) := by omega
  refine ⟨?_, ?_, ?_⟩
  · simp [StringPointer.alloc, wasmMalloc, CType.size]
  · simp [StringPointer.from, StringPointer.alloc, wasmMalloc, CType.size,
      StringPointer.write, BasePtr.validate_of_ne _ (Nat.succ_ne_zero h.next),
      hguard, encodeUTF8, WasmHeap.setCell, Except.isOk]
    rfl
  · simp [StringPointer.from, StringPointer.alloc, wasmMalloc, CType.size,
      StringPointer.write, BasePtr.validate_of_ne _ (Nat.succ_ne_zero h.next),
      hguard, encodeUTF8, WasmHeap.setCell, allocsOf]
    rfl

/-- Witness for C9 at capacity 3 with the empty initial string. -/
theorem stringPointer_capacity_witness :
    (StringPointer.alloc emptyHeap 3).2.allocs
        = emptyHeap.allocs ++ [((StringPointer.alloc emptyHeap 3).1.base.ptr, 3)] ∧
    (StringPointer.from emptyHeap 3 []).isOk = true ∧
    allocsOf (StringPointer.from emptyHeap 3 [])
        = emptyHeap.allocs ++ [(emptyHeap.next + 1, 3 + 1)] :=
  stringPointer_capacity emptyHeap 3 [] (by decide)

theorem int_cast_of_den_one {q : ℚ} (hq : q.den = 1) : ((q.num : ℚ)) = q := by
  have hnd := Rat.num_div_den q
  rw [hq] at hnd
  simpa using hnd

theorem qtrunc_den_one {q : ℚ} (hq : q.den = 1) : qtrunc q = q.num := by
  have hv : ((q.num : ℚ)) = q := int_cast_of_den_one hq
  unfold qtrunc
  split
  · conv_lhs => rw [← hv]
    exact Int.floor_intCast q.num
  · conv_lhs => rw [← hv]
    exact Int.ceil_intCast q.num

/-- The guest runtime's typed store/load round-trips every value
representable at its kind's width. -/
theorem decode_encode (t : CType) (v : HostVal t) (hrep : RepIn t v) :
    decodeVal t (encodeVal t v) = v := by
  cases t with
  | i8 =>
    obtain ⟨hden, hlo, hhi⟩ := hrep
    simp only [encodeVal, decodeVal, qtrunc_den_one hden]
    rw [show wrap 8 v.num = v.num by unfold wrap; omega]
    exact int_cast_of_den_one hden
  | i16 =>
    obtain ⟨hden, hlo, hhi⟩ := hrep
    simp only [encodeVal, decodeVal, qtrunc_den_one hden]
    rw [show wrap 16 v.num = v.num by unfold wrap; omega]
    exact int_cast_of_den_one hden
  | i32 =>
    obtain ⟨hden, hlo, hhi⟩ := hrep
    simp only [encodeVal, decodeVal, qtrunc_den_one hden]
    rw [show wrap 32 v.num = v.num by unfold wrap; omega]
    exact int_cast_of_den_one hden
  | i64 =>
    obtain ⟨w, hw⟩ : ∃ w : ℤ, v = w := ⟨v, rfl⟩
    obtain ⟨hlo, hhi⟩ := hrep
    rw [hw] at hlo hhi ⊢
    have hlo2 : -(2 ^ 63 : ℤ) ≤ w := hlo
    have hhi2 : w < (2 ^ 63 : ℤ) := hhi
    show wrap 64 w = w
    unfold wrap
    omega
  | float => simp only [encodeVal, decodeVal]
  | double => simp only [encodeVal, decodeVal]

/-- The composition `NumberPointer.from(wasm, k, v).read()` of the claim. -/
def numFromThenRead (h : WasmHeap) (t : CType) (v : HostVal t) :
    Except Err (HostVal t) :=
  match NumberPointer.from h t v with
  | .error e => .error e
  | .ok (p, h2) => p.read h2

/-- C4: for every supported kind and every value representable at that
kind's width, reading a freshly constructed scalar handle returns the value:
`NumberPointer.from(wasm, k, v).read() = v`, exactly (for `i64` the value is
an arbitrary-precision `ℤ`, for the other kinds an exact JS number `ℚ`). -/
theorem numberPointer_roundTrip (h : WasmHeap) (t : CType) (v : HostVal t)
    (hrep : RepIn t v) : numFromThenRead h t v = .ok v := by
  have hne : (h.next + 1) ≠ 0 := Nat.succ_ne_zero _
  simp [numFromThenRead, NumberPointer.from, NumberPointer.alloc, wasmMalloc,
    NumberPointer.write, NumberPointer.add, NumberPointer.read,
    BasePtr.validate_of_ne _ hne, writeTyped, readTyped, WasmHeap.setCell,
    exceptBind_ok, decode_encode t v hrep]

/-- Witness for C4 at kind `i32`, value 5. -/
theorem numberPointer_roundTrip_witness :
    numFromThenRead emptyHeap .i32 5 = .ok 5 :=
  numberPointer_roundTrip emptyHeap .i32 5 ⟨by norm_num, by norm_num, by norm_num⟩

/-- C10: the bounds guard of `add` imposes no integrality requirement — on a
valid ArrayPointer, a non-integer (JS-number) index strictly between 0 and
the length passes the guard, so `add` succeeds and writes at byte offset
`ptr + loc * size`, an address equal to no element slot `ptr + j * size`. -/
theorem arrayPointer_add_nonint {t : CType} (p : ArrayPointer t) (h : WasmHeap)
    (loc : ℚ) (v : HostVal t) (j : ℕ) (hv : p.base.ptr ≠ 0)
    (hden : loc.den ≠ 1) (h0 : 0 < loc) (hn : loc < (p.length : ℚ)) :
    p.add h loc v =
        .ok (writeTyped h ((p.base.ptr : ℚ) + loc * (t.size : ℚ)) t v) ∧
    (p.base.ptr : ℚ) + loc * (t.size : ℚ) ≠
        (p.base.ptr : ℚ) + (j : ℚ) * (t.size : ℚ) := by
  constructor
  · simp [ArrayPointer.add, BasePtr.validate_of_ne p.base hv, le_of_lt h0, hn,
      exceptBind_ok]
  · intro heq
    have hsz : ((t.size : ℕ) : ℚ) ≠ 0 :=
      Nat.cast_ne_zero.mpr (CType.size_pos t).ne'
    have hls : loc * (t.size : ℚ) = (j : ℚ) * (t.size : ℚ) := by
      exact add_left_cancel heq
    have hlj : loc = (j : ℚ) := mul_right_cancel₀ hsz hls
    rw [hlj] at hden
    exact hden (Rat.den_natCast j)

/-- Witness for C10: index ½ in an `i8` array of length 2 (slot width 1
byte), against slot index 1. -/
theorem arrayPointer_add_nonint_witness :
    ArrayPointer.add (t := .i8) ⟨⟨4⟩, 2⟩ emptyHeap (1 / 2) 7 =
        .ok (writeTyped emptyHeap
          (((4 : ℕ) : ℚ) + (1 / 2) * ((CType.size .i8 : ℕ) : ℚ)) .i8 7) ∧
    ((4 : ℕ) : ℚ) + (1 / 2) * ((CType.size .i8 : ℕ) : ℚ) ≠
        ((4 : ℕ) : ℚ) + ((1 : ℕ) : ℚ) * ((CType.size .i8 : ℕ) : ℚ) :=
  arrayPointer_add_nonint ⟨⟨4⟩, 2⟩ emptyHeap (1 / 2) 7 1 (by decide)
    (by norm_num) (by norm_num) (by norm_num)

/-- The spec side of C8: `read()` followed by `release()` — run the
subclass read on the heap, then free, returning the read value with the
mutated pointer and heap. -/
def readThenFreeSpec {α : Type} (p : BasePtr) (h : WasmHeap)
    (readFn : WasmHeap → Except Err α) : Except Err (α × BasePtr × WasmHeap) :=
  match readFn h with
  | .error e => .error e
  | .ok v => .ok (v, p.free h)

/-- C8: for every handle whose `read` fails with the Invalid-Pointer error
when the handle is invalid (which every subclass `read` does, via the shared
guard), `readAndFree()` equals `read()` followed by `free()`: it fails with
the Invalid-Pointer error when invalid, otherwise returns exactly the value
`read()` returns and leaves the handle with address 0. -/
theorem readAndFree_equiv {α : Type} (p : BasePtr) (h : WasmHeap)
    (readFn : WasmHeap → Except Err α) (v : α) (q : BasePtr) (h2 : WasmHeap)
    (hguard : p.isValid = false → readFn h = .error .invalidPointer) :
    readAndFreeG p h readFn = readThenFreeSpec p h readFn ∧
    (p.isValid = false → readAndFreeG p h readFn = .error .invalidPointer) ∧
    (readAndFreeG p h readFn = .ok (v, q, h2) → q.ptr = 0) := by
  by_cases hb : p.isValid
  · have hval : p.validatePointer = .ok () := by
      simp [BasePtr.validatePointer, hb]
    rcases hpf : p.free h with ⟨p2, fh⟩
    have hp2 : p2.ptr = 0 := by
      have hfz := BasePtr.free_fst_ptr p h
      rw [hpf] at hfz
      exact hfz
    cases hr : readFn h with
    | error e =>
      refine ⟨?_, ?_, ?_⟩
      · simp [readAndFreeG, readThenFreeSpec, hval, hr, hpf, exceptBind_ok,
          exceptBind_error]
      · intro hc
        rw [hc] at hb
        simp at hb
      · intro hc
        simp [readAndFreeG, hval, hr, exceptBind_ok, exceptBind_error] at hc
    | ok val =>
      refine ⟨?_, ?_, ?_⟩
      · simp [readAndFreeG, readThenFreeSpec, hval, hr, hpf, exceptBind_ok]
      · intro hc
        rw [hc] at hb
        simp at hb
      · intro hc
        simp only [readAndFreeG, hval, hr, exceptBind_ok, hpf] at hc
        have hq : p2 = q := by
          have hinj := hc
          injection hinj with hpair
          exact congrArg (fun x => x.2.1) hpair
        rw [← hq]
        exact hp2
  · have hbf : p.isValid = false := by
      cases hxx : p.isValid
      · rfl
      · exact absurd hxx hb
    have hval : p.validatePointer = .error .invalidPointer := by
      simp [BasePtr.validatePointer, hbf]
    refine ⟨?_, ?_, ?_⟩
    · simp [readAndFreeG, readThenFreeSpec, hval, hguard hbf, exceptBind_error]
    · intro _
      simp [readAndFreeG, hval, exceptBind_error]
    · intro hc
      rw [show readAndFreeG p h readFn = .error .invalidPointer by
        simp [readAndFreeG, hval, exceptBind_error]] at hc
      exact absurd hc (by simp)

/-- The heap after writing `vs` one element at a time at consecutive slots
`a + i * size`, `a + (i+1) * size`, … — the effect of `ArrayPointer.write`'s
element loop. -/
def writeList {t : CType} (a : ℚ) : WasmHeap → ℕ → List (HostVal t) → WasmHeap
  | h, _, [] => h
  | h, i, v :: vs =>
    writeList a (writeTyped h (a + (i : ℚ) * (t.size : ℚ)) t v) (i + 1) vs

theorem slot_addr_inj {a s : ℚ} (hs : s ≠ 0) {i j : ℕ} (hij : i ≠ j) :
    a + (i : ℚ) * s ≠ a + (j : ℚ) * s := by
  intro heq
  have h1 : (i : ℚ) * s = (j : ℚ) * s := add_left_cancel heq
  have h2 : ((i : ℕ) : ℚ) = ((j : ℕ) : ℚ) := mul_right_cancel₀ hs h1
  exact hij (Nat.cast_injective h2)

theorem write_foldlM {t : CType} (p : ArrayPointer t) (hv : p.base.ptr ≠ 0)
    (vs : List (HostVal t)) : ∀ (i : ℕ) (h : WasmHeap),
    i + vs.length ≤ p.length →
    (List.enumFrom i vs).foldlM (fun hh iv => p.add hh (iv.1 : ℚ) iv.2) h
      = .ok (writeList (p.base.ptr : ℚ) h i vs) := by
  induction vs with
  | nil => intro i h _; rfl
  | cons v vs ih =>
    intro i h hle
    simp only [List.length_cons] at hle
    have hbound : 0 ≤ (i : ℚ) ∧ (i : ℚ) < (p.length : ℚ) := by
      refine ⟨Nat.cast_nonneg i, ?_⟩
      exact_mod_cast (by omega : i < p.length)
    have hadd : p.add h (i : ℚ) v =
        .ok (writeTyped h ((p.base.ptr : ℚ) + (i : ℚ) * (t.size : ℚ)) t v) := by
      simp [ArrayPointer.add, BasePtr.validate_of_ne p.base hv, hbound,
        exceptBind_ok]
    rw [show List.enumFrom i (v :: vs) = (i, v) :: List.enumFrom (i + 1) vs
          from rfl,
      List.foldlM_cons]
    simp only [hadd, exceptBind_ok]
    rw [ih (i + 1) _ (by omega)]
    rfl

/-- On a valid pointer, a bulk write of at most `length` values succeeds and
produces exactly the element-loop heap. -/
theorem ArrayPointer.write_ok {t : CType} (p : ArrayPointer t) (h : WasmHeap)
    (vals : List (HostVal t)) (hv : p.base.ptr ≠ 0)
    (hlen : vals.length ≤ p.length) :
    p.write h vals = .ok (writeList (p.base.ptr : ℚ) h 0 vals) := by
  have hnot : ¬(vals.length > p.length) := by omega
  simp only [ArrayPointer.write, BasePtr.validate_of_ne p.base hv,
    exceptBind_ok, if_neg hnot]
  have hfold := write_foldlM p hv vals 0 h (by omega)
  rw [show vals.enum = List.enumFrom 0 vals from rfl]
  exact hfold

theorem writeList_mem_lt {t : CType} (a : ℚ) (hs : ((t.size : ℕ) : ℚ) ≠ 0)
    (vs : List (HostVal t)) : ∀ (i : ℕ) (h : WasmHeap) (j : ℕ), j < i →
    (writeList a h i vs).mem (a + (j : ℚ) * (t.size : ℚ))
      = h.mem (a + (j : ℚ) * (t.size : ℚ)) := by
  induction vs with
  | nil => intro i h j _; rfl
  | cons v vs ih =>
    intro i h j hj
    show (writeList a (writeTyped h (a + (i : ℚ) * (t.size : ℚ)) t v)
        (i + 1) vs).mem (a + (j : ℚ) * (t.size : ℚ)) = _
    rw [ih (i + 1) _ j (by omega)]
    simp only [writeTyped, WasmHeap.setCell]
    exact if_neg (slot_addr_inj hs (by omega : j ≠ i))

theorem writeList_mem_get {t : CType} (a : ℚ) (hs : ((t.size : ℕ) : ℚ) ≠ 0)
    (vs : List (HostVal t)) : ∀ (i : ℕ) (h : WasmHeap) (j : ℕ)
    (hj : j < vs.length),
    (writeList a h i vs).mem (a + (((i + j : ℕ)) : ℚ) * (t.size : ℚ))
      = encodeVal t (vs.get ⟨j, hj⟩) := by
  induction vs with
  | nil => intro i h j hj; exact absurd hj (by simp)
  | cons v vs ih =>
    intro i h j hj
    cases j with
    | zero =>
      show (writeList a (writeTyped h (a + (i : ℚ) * (t.size : ℚ)) t v)
          (i + 1) vs).mem (a + (((i + 0 : ℕ)) : ℚ) * (t.size : ℚ)) = encodeVal t v
      rw [show ((i + 0 : ℕ)) = i from rfl]
      rw [writeList_mem_lt a hs vs (i + 1) _ i (by omega)]
      simp [writeTyped, WasmHeap.setCell]
    | succ k =>
      have hk : k < vs.length := by
        simp only [List.length_cons] at hj
        omega
      show (writeList a (writeTyped h (a + (i : ℚ) * (t.size : ℚ)) t v)
          (i + 1) vs).mem (a + (((i + (k + 1) : ℕ)) : ℚ) * (t.size : ℚ))
        = encodeVal t ((v :: vs).get ⟨k + 1, hj⟩)
      rw [show (i + (k + 1) : ℕ) = ((i + 1) + k : ℕ) by omega]
      rw [ih (i + 1) _ k hk]
      rfl

/-- On a valid pointer, `read` returns the decoded slots, trimmed/padded to
the fixed length. -/
theorem ArrayPointer.read_ok {t : CType} (p : ArrayPointer t) (h : WasmHeap)
    (hv : p.base.ptr ≠ 0) :
    p.read h = .ok (toFixedLengthArray ((List.range p.length).map fun (i : ℕ) =>
      readTyped h ((p.base.ptr : ℚ) + (i : ℚ) * (t.size : ℚ)) t)
      p.length (decodeVal t (.int 0))) := by
  simp only [ArrayPointer.read, BasePtr.validate_of_ne p.base hv, exceptBind_ok]

theorem toFixedLengthArray_of_length {α : Type} (xs : List α) (n : ℕ) (f : α)
    (hxs : xs.length = n) : toFixedLengthArray xs n f = xs := by
  subst hxs
  simp [toFixedLengthArray]

/-- The heap a possibly-failed operation leaves behind: the new heap on
success, the unchanged pre-call heap on a throw. -/
def heapOr (d : WasmHeap) : Except Err WasmHeap → WasmHeap
  | .ok hh => hh
  | .error _ => d

/-- C5 counterexample: a written entry need not be read back equal when it
is not representable at the element kind's width.  Writing `[300]` into a
valid length-1 `i8` array succeeds (the bulk-write guard checks only the
length), but `read()` returns `[44]` — 300 wrapped to a signed byte — so
the claim's "its first m entries equal the written values" is false as
universally stated. -/
theorem arrayPointer_write_read_cex :
    (ArrayPointer.write (t := .i8) ⟨⟨1⟩, 1⟩ emptyHeap [300]).isOk = true ∧
    (ArrayPointer.read (t := .i8) ⟨⟨1⟩, 1⟩
        (heapOr emptyHeap
          (ArrayPointer.write (t := .i8) ⟨⟨1⟩, 1⟩ emptyHeap [300])))
      = .ok [44] ∧
    (44 : ℚ) ≠ 300 := by
  have hv : (ArrayPointer.mk (t := .i8) ⟨1⟩ 1).base.ptr ≠ 0 := by decide
  have hw := ArrayPointer.write_ok (t := .i8) ⟨⟨1⟩, 1⟩ emptyHeap [300] hv
    (by decide)
  have hde : decodeVal .i8 (encodeVal .i8 300) = (44 : ℚ) := by
    have hq : qtrunc (300 : ℚ) = 300 := by
      rw [qtrunc, if_pos (by norm_num : (0 : ℚ) ≤ 300)]
      rw [show (300 : ℚ) = ((300 : ℤ) : ℚ) by norm_num, Int.floor_intCast]
    show ((wrap 8 (qtrunc (300 : ℚ)) : ℤ) : ℚ) = 44
    rw [hq, show wrap 8 (300 : ℤ) = 44 by unfold wrap; decide]
    norm_num
  refine ⟨by rw [hw]; rfl, ?_, by norm_num⟩
  rw [hw]
  show ArrayPointer.read (t := .i8) ⟨⟨1⟩, 1⟩
    (writeList (((1 : ℕ) : ℚ)) emptyHeap 0 [300]) = .ok [44]
  rw [ArrayPointer.read_ok (t := .i8) ⟨⟨1⟩, 1⟩ _ hv]
  congr 1
  simp [writeList, writeTyped, WasmHeap.setCell, readTyped,
    toFixedLengthArray, List.range_succ, hde]

/-- C5 (amended): on a valid ArrayPointer of declared length `n`, a
successful bulk write of `m ≤ n` values, each representable at the element
kind's width, makes `read()` return a sequence of length exactly `n` whose
first `m` entries are the written values in order (values outside the
kind's width are stored wrapped, so the read-back equality holds only for
representable values). -/
theorem arrayPointer_write_read {t : CType} (p : ArrayPointer t)
    (h : WasmHeap) (vals : List (HostVal t)) (hv : p.base.ptr ≠ 0)
    (hlen : vals.length ≤ p.length) (hrep : ∀ v ∈ vals, RepIn t v) :
    (p.write h vals).isOk = true ∧
    (p.read (heapOr h (p.write h vals))).map List.length = .ok p.length ∧
    (p.read (heapOr h (p.write h vals))).map (fun l => l.take vals.length)
      = .ok vals := by
  have hs : ((t.size : ℕ) : ℚ) ≠ 0 := Nat.cast_ne_zero.mpr (CType.size_pos t).ne'
  have hw := ArrayPointer.write_ok p h vals hv hlen
  rw [hw]
  have hr := ArrayPointer.read_ok p (writeList (p.base.ptr : ℚ) h 0 vals) hv
  have hlistlen : ((List.range p.length).map fun (i : ℕ) =>
      readTyped (writeList (p.base.ptr : ℚ) h 0 vals)
        ((p.base.ptr : ℚ) + (i : ℚ) * (t.size : ℚ)) t).length = p.length := by
    simp
  have hfix : toFixedLengthArray ((List.range p.length).map fun (i : ℕ) =>
      readTyped (writeList (p.base.ptr : ℚ) h 0 vals)
        ((p.base.ptr : ℚ) + (i : ℚ) * (t.size : ℚ)) t)
      p.length (decodeVal t (.int 0))
      = (List.range p.length).map fun (i : ℕ) =>
        readTyped (writeList (p.base.ptr : ℚ) h 0 vals)
          ((p.base.ptr : ℚ) + (i : ℚ) * (t.size : ℚ)) t :=
    toFixedLengthArray_of_length _ _ _ hlistlen
  refine ⟨rfl, ?_, ?_⟩
  · rw [show heapOr h (Except.ok (writeList (p.base.ptr : ℚ) h 0 vals))
        = writeList (p.base.ptr : ℚ) h 0 vals from rfl, hr]
    simp [Except.map, hfix]
  · rw [show heapOr h (Except.ok (writeList (p.base.ptr : ℚ) h 0 vals))
        = writeList (p.base.ptr : ℚ) h 0 vals from rfl, hr]
    simp only [Except.map, hfix]
    congr 1
    rw [← List.map_take, List.take_range, min_eq_left hlen]
    have hm : ((List.range vals.length).map fun (i : ℕ) =>
        readTyped (writeList (p.base.ptr : ℚ) h 0 vals)
          ((p.base.ptr : ℚ) + (i : ℚ) * (t.size : ℚ)) t).length
        = vals.length := by
      simp
    apply List.ext_get hm
    intro j h1 h2
    have hjm : j < vals.length := h2
    rw [List.get_map]
    rw [show (List.range vals.length).get ⟨j, by simpa using hjm⟩ = j from
      List.get_range _ _]
    show decodeVal t ((writeList (p.base.ptr : ℚ) h 0 vals).mem
      ((p.base.ptr : ℚ) + (j : ℚ) * (t.size : ℚ))) = vals.get ⟨j, hjm⟩
    rw [show ((j : ℕ) : ℚ) = (((0 + j : ℕ)) : ℚ) by norm_num]
    rw [writeList_mem_get (p.base.ptr : ℚ) hs vals 0 h j hjm]
    exact decode_encode t (vals.get ⟨j, hjm⟩) (hrep _ (List.get_mem vals _ _))

/-- Witness for C5: two `i32` values into a length-3 array at address 1. -/
theorem arrayPointer_write_read_witness :
    (ArrayPointer.write (t := .i32) ⟨⟨1⟩, 3⟩ emptyHeap [1, 2]).isOk = true ∧
    (ArrayPointer.read (t := .i32) ⟨⟨1⟩, 3⟩
        (heapOr emptyHeap (ArrayPointer.write (t := .i32) ⟨⟨1⟩, 3⟩ emptyHeap
          [1, 2]))).map List.length = .ok 3 ∧
    (ArrayPointer.read (t := .i32) ⟨⟨1⟩, 3⟩
        (heapOr emptyHeap (ArrayPointer.write (t := .i32) ⟨⟨1⟩, 3⟩ emptyHeap
          [1, 2]))).map (fun l => l.take [1, 2].length) = .ok [1, 2] :=
  arrayPointer_write_read ⟨⟨1⟩, 3⟩ emptyHeap [1, 2] (by decide) (by decide)
    (by
      intro v hvm
      simp only [List.mem_cons, List.mem_singleton] at hvm
      rcases hvm with rfl | rfl | hvm
      · exact ⟨by norm_num, by norm_num, by norm_num⟩
      · exact ⟨by norm_num, by norm_num, by norm_num⟩
      · exact absurd hvm (List.not_mem_nil v))

/-- Witness for C8: a valid `i32` scalar handle at address 5 over the empty
heap. -/
theorem readAndFree_equiv_witness :
    readAndFreeG ⟨5⟩ emptyHeap (NumberPointer.read (t := .i32) ⟨⟨5⟩⟩) =
        readThenFreeSpec ⟨5⟩ emptyHeap (NumberPointer.read (t := .i32) ⟨⟨5⟩⟩) ∧
    ((⟨5⟩ : BasePtr).isValid = false →
      readAndFreeG ⟨5⟩ emptyHeap (NumberPointer.read (t := .i32) ⟨⟨5⟩⟩) =
        .error .invalidPointer) ∧
    (readAndFreeG ⟨5⟩ emptyHeap (NumberPointer.read (t := .i32) ⟨⟨5⟩⟩) =
        .ok (0, ⟨0⟩, wasmFree emptyHeap 5) → (⟨0⟩ : BasePtr).ptr = 0) :=
  readAndFree_equiv ⟨5⟩ emptyHeap (NumberPointer.read (t := .i32) ⟨⟨5⟩⟩)
    0 ⟨0⟩ (wasmFree emptyHeap 5) (fun hc => absurd hc (by decide))

end WaspLib
